import Mathlib

/-!
Verification of the CUE JavaScript upload library (`cue-upload-library`).

The source is shallowly embedded: each JavaScript function relevant to the
checked properties is translated into a Lean definition over `Nat`, `List`
and `Except`/`Option` (JS numbers are exact for the integer sizes involved;
exceptions become `Except`; `null`/`undefined` become `Option`).  Network
and filesystem effects are passed in as explicit oracle arguments: an
oracle gives, per attempt, the outcome the remote side produced, so the
control flow of the embedded function is exactly the source's.
-/

namespace CUE

/-! ## Multipart partition arithmetic (multipartUploader.js, handleMultipartUpload)

`chunkSizeBytes` embeds lines 86-87:
  let chunkSize = config.multipart_chunk_size_mb * 1024 * 1024;
  if (chunkSize < 5 * 1024 * 1024) chunkSize = 5 * 1024 * 1024;
`numParts` embeds line 88: Math.ceil(fileSize / chunkSize) (exact for the
integer byte counts involved).
`mkPartTasks` embeds lines 109-116: the loop creating UploadPartTaskJS_MPU
records with part number i+1, offset i*chunkSize and size
min(chunkSize, fileSize - i*chunkSize), skipping nonpositive sizes. -/

def S3_MAX_PARTS : Nat := 10000

def chunkSizeBytes (multipart_chunk_size_mb : Nat) : Nat :=
  let cs := multipart_chunk_size_mb * 1024 * 1024
  if cs < 5 * 1024 * 1024 then 5 * 1024 * 1024 else cs

def numParts (fileSize chunkSize : Nat) : Nat :=
  (fileSize + chunkSize - 1) / chunkSize

structure UploadPartTask where
  partNumber : Nat
  offset : Nat
  size : Nat
deriving Repr, DecidableEq

def mkPartTasks (fileSize chunkSize : Nat) : List UploadPartTask :=
  (List.range (numParts fileSize chunkSize)).filterMap fun i =>
    let sz := min chunkSize (fileSize - i * chunkSize)
    if sz = 0 then none else some ⟨i + 1, i * chunkSize, sz⟩

lemma chunkSizeBytes_pos (mb : Nat) : 0 < chunkSizeBytes mb := by
  unfold chunkSizeBytes
  dsimp only
  split <;> omega

lemma chunkSizeBytes_eq_max (mb : Nat) :
    chunkSizeBytes mb = max (mb * 1024 * 1024) (5 * 1024 * 1024) := by
  unfold chunkSizeBytes
  dsimp only
  split <;> omega

lemma lt_numParts_iff {cs : Nat} (hcs : 0 < cs) (S i : Nat) :
    i < numParts S cs ↔ i * cs < S := by
  unfold numParts
  rw [Nat.lt_iff_add_one_le, Nat.le_div_iff_mul_le hcs, Nat.add_mul, Nat.one_mul]
  omega

lemma le_numParts_mul {cs : Nat} (hcs : 0 < cs) (S : Nat) :
    S ≤ numParts S cs * cs := by
  by_contra h
  exact absurd ((lt_numParts_iff hcs S (numParts S cs)).mpr (by omega))
    (lt_irrefl _)

lemma numParts_pos {cs : Nat} (hcs : 0 < cs) {S : Nat} (hS : 0 < S) :
    0 < numParts S cs := by
  rw [lt_numParts_iff hcs]
  omega

lemma pred_numParts_mul_lt {cs : Nat} (hcs : 0 < cs) {S : Nat} (hS : 0 < S) :
    (numParts S cs - 1) * cs < S := by
  have h1 : 0 < numParts S cs := numParts_pos hcs hS
  exact (lt_numParts_iff hcs S (numParts S cs - 1)).mp (by omega)

lemma filterMap_eq_map_of_forall {α β : Type} {l : List α} {f : α → Option β} {g : α → β}
    (h : ∀ a ∈ l, f a = some (g a)) : l.filterMap f = l.map g := by
  induction l with
  | nil => rfl
  | cons a l ih =>
    have ha := h a (by simp)
    have ih' := ih fun x hx => h x (by simp [hx])
    simp [List.filterMap_cons, ha, ih']

lemma mkPartTasks_eq_map {cs : Nat} (hcs : 0 < cs) (S : Nat) :
    mkPartTasks S cs =
      (List.range (numParts S cs)).map
        fun i => ⟨i + 1, i * cs, min cs (S - i * cs)⟩ := by
  unfold mkPartTasks
  apply filterMap_eq_map_of_forall
  intro i hi
  rw [List.mem_range] at hi
  have h1 : i * cs < S := (lt_numParts_iff hcs S i).mp hi
  have h2 : ¬ (min cs (S - i * cs) = 0) := by
    simp only [Nat.min_def]
    split <;> omega
  simp [h2]

lemma mkPartTasks_length {cs : Nat} (hcs : 0 < cs) (S : Nat) :
    (mkPartTasks S cs).length = numParts S cs := by
  rw [mkPartTasks_eq_map hcs]
  simp

lemma mkPartTasks_getElem {cs : Nat} (hcs : 0 < cs) (S k : Nat)
    (h : k < (mkPartTasks S cs).length) :
    (mkPartTasks S cs)[k] =
      ⟨k + 1, k * cs, min cs (S - k * cs)⟩ := by
  have h' : k < numParts S cs := by
    rw [mkPartTasks_length hcs] at h
    exact h
  simp [mkPartTasks_eq_map hcs, h']

lemma min_eq_chunk_of_not_last {cs : Nat} (hcs : 0 < cs) {S k : Nat}
    (h : k + 1 < numParts S cs) : min cs (S - k * cs) = cs := by
  have h1 : (k + 1) * cs < S := (lt_numParts_iff hcs S (k + 1)).mp h
  have h2 : k * cs + cs < S := by
    rw [Nat.add_mul, Nat.one_mul] at h1
    omega
  omega

lemma sum_map_const_range (cs m : Nat) :
    (List.map (fun _ => cs) (List.range m)).sum = m * cs := by
  induction m with
  | zero => simp
  | succ n ih =>
    rw [List.range_succ, List.map_append, List.sum_append, ih]
    simp [Nat.succ_mul]

lemma sum_sizes_mkPartTasks {cs : Nat} (hcs : 0 < cs) {S : Nat} (hS : 0 < S) :
    ((mkPartTasks S cs).map (fun t => t.size)).sum = S := by
  rw [mkPartTasks_eq_map hcs, List.map_map]
  obtain ⟨m, hm⟩ : ∃ m, numParts S cs = m + 1 := by
    have := numParts_pos hcs hS
    exact ⟨numParts S cs - 1, by omega⟩
  rw [hm, List.range_succ, List.map_append, List.sum_append]
  have hconst : List.map ((fun t : UploadPartTask => t.size) ∘
      fun i => (⟨i + 1, i * cs, min cs (S - i * cs)⟩ : UploadPartTask)) (List.range m) =
      List.map (fun _ => cs) (List.range m) := by
    apply List.map_congr_left
    intro i hi
    rw [List.mem_range] at hi
    simp only [Function.comp]
    exact min_eq_chunk_of_not_last hcs (by omega)
  rw [hconst, sum_map_const_range]
  have hlow : m * cs < S := by
    have := pred_numParts_mul_lt hcs hS
    rw [hm] at this
    simpa using this
  have hhigh : S ≤ (m + 1) * cs := by
    have := le_numParts_mul hcs S
    rw [hm] at this
    exact this
  rw [Nat.add_mul, Nat.one_mul] at hhigh
  have hone : (List.map ((fun t : UploadPartTask => t.size) ∘
      fun i => (⟨i + 1, i * cs, min cs (S - i * cs)⟩ : UploadPartTask)) [m]).sum =
      min cs (S - m * cs) := by
    simp
  rw [hone]
  omega

lemma getLast?_mkPartTasks {cs : Nat} (hcs : 0 < cs) {S : Nat} (hS : 0 < S) :
    (mkPartTasks S cs).getLast? =
      some ⟨numParts S cs, (numParts S cs - 1) * cs, S - (numParts S cs - 1) * cs⟩ := by
  rw [mkPartTasks_eq_map hcs]
  obtain ⟨m, hm⟩ : ∃ m, numParts S cs = m + 1 := by
    have := numParts_pos hcs hS
    exact ⟨numParts S cs - 1, by omega⟩
  rw [hm, List.range_succ, List.map_append]
  have hlow : m * cs < S := by
    have := pred_numParts_mul_lt hcs hS
    rw [hm] at this
    simpa using this
  have hhigh : S ≤ (m + 1) * cs := by
    have := le_numParts_mul hcs S
    rw [hm] at this
    exact this
  rw [Nat.add_mul, Nat.one_mul] at hhigh
  have hmin : min cs (S - m * cs) = S - m * cs := by omega
  simp [hmin]

/-- Claim C1: for a multipart upload of a file of size `fileSize > 0` with configured
chunk size `mb` MB, the effective chunk size is `max (mb * 1MiB) 5MiB`; the number
of part tasks equals `ceil(fileSize / effectiveChunkSize)` (witnessed by the two
ceiling bounds); part numbers are contiguous and 1-based with contiguous byte
ranges starting at offset 0; the part sizes sum to `fileSize`; and the last part's
size is `fileSize - (partCount - 1) * effectiveChunkSize`. -/
theorem multipart_partition_correct (fileSize mb : Nat) (hS : 0 < fileSize) :
    chunkSizeBytes mb = max (mb * 1024 * 1024) (5 * 1024 * 1024) ∧
    (mkPartTasks fileSize (chunkSizeBytes mb)).length = numParts fileSize (chunkSizeBytes mb) ∧
    fileSize ≤ (mkPartTasks fileSize (chunkSizeBytes mb)).length * chunkSizeBytes mb ∧
    ((mkPartTasks fileSize (chunkSizeBytes mb)).length - 1) * chunkSizeBytes mb < fileSize ∧
    (∀ k, (h : k < (mkPartTasks fileSize (chunkSizeBytes mb)).length) →
      (mkPartTasks fileSize (chunkSizeBytes mb))[k].partNumber = k + 1 ∧
      (mkPartTasks fileSize (chunkSizeBytes mb))[k].offset = k * chunkSizeBytes mb) ∧
    (∀ k, (h : k + 1 < (mkPartTasks fileSize (chunkSizeBytes mb)).length) →
      (h2 : k < (mkPartTasks fileSize (chunkSizeBytes mb)).length) →
      (mkPartTasks fileSize (chunkSizeBytes mb))[k + 1].offset =
        (mkPartTasks fileSize (chunkSizeBytes mb))[k].offset +
        (mkPartTasks fileSize (chunkSizeBytes mb))[k].size) ∧
    ((mkPartTasks fileSize (chunkSizeBytes mb)).map (fun t => t.size)).sum = fileSize ∧
    (mkPartTasks fileSize (chunkSizeBytes mb)).getLast? =
      some ⟨numParts fileSize (chunkSizeBytes mb),
            (numParts fileSize (chunkSizeBytes mb) - 1) * chunkSizeBytes mb,
            fileSize - (numParts fileSize (chunkSizeBytes mb) - 1) * chunkSizeBytes mb⟩ := by
  have hcs : 0 < chunkSizeBytes mb := chunkSizeBytes_pos mb
  refine ⟨chunkSizeBytes_eq_max mb, mkPartTasks_length hcs fileSize, ?_, ?_, ?_, ?_, ?_, ?_⟩
  · rw [mkPartTasks_length hcs]
    exact le_numParts_mul hcs fileSize
  · rw [mkPartTasks_length hcs]
    exact pred_numParts_mul_lt hcs hS
  · intro k h
    rw [mkPartTasks_getElem hcs fileSize k h]
    exact ⟨rfl, rfl⟩
  · intro k h h2
    rw [mkPartTasks_getElem hcs fileSize (k + 1) h, mkPartTasks_getElem hcs fileSize k h2]
    have hk : k + 1 < numParts fileSize (chunkSizeBytes mb) := by
      rw [mkPartTasks_length hcs] at h
      exact h
    simp [min_eq_chunk_of_not_last hcs hk, Nat.add_mul, Nat.one_mul]
  · exact sum_sizes_mkPartTasks hcs hS
  · exact getLast?_mkPartTasks hcs hS

/-- Witness for C1 at the spec's own 12 MiB / 5 MiB scenario: three parts of
5 MiB, 5 MiB and 2 MiB. -/
theorem multipart_partition_correct_witness :
    ((mkPartTasks 12582912 (chunkSizeBytes 5)).map (fun t => t.size)).sum = 12582912 ∧
    (mkPartTasks 12582912 (chunkSizeBytes 5)).getLast? = some ⟨3, 10485760, 2097152⟩ := by
  have h := multipart_partition_correct 12582912 5 (by norm_num)
  have hn : numParts 12582912 (chunkSizeBytes 5) = 3 := by decide
  refine ⟨h.2.2.2.2.2.2.1, ?_⟩
  rw [h.2.2.2.2.2.2.2, hn]
  decide

/-! ## Size-threshold dispatch (index.js CUEUploader.upload, lines 95-109, and
folderProcessor.js scheduleNextFileInFolder, lines 98-110)

Both call sites compute `multipartThresholdBytes = config.multipart_threshold_gb
* (1024 ** 3)` and dispatch with the same comparison:
  if (fileSize > multipartThresholdBytes) multipart else single. -/

inductive TransferKind where
  | single
  | multipart
deriving Repr, DecidableEq

def multipartThresholdBytes (multipart_threshold_gb : Nat) : Nat :=
  multipart_threshold_gb * 1024 ^ 3

def chooseTransfer (fileSize thresholdBytes : Nat) : TransferKind :=
  if thresholdBytes < fileSize then TransferKind.multipart else TransferKind.single

/-- Claim C4: a file whose size is at most the configured multipart threshold
(`multipart_threshold_gb * 1024^3` bytes) is dispatched to the Single-Unit
Transfer, a file strictly larger is dispatched to the Multipart Transfer, and a
file whose size equals the threshold exactly goes to Single-Unit. -/
theorem threshold_dispatch_correct (fileSize gb : Nat) :
    (fileSize ≤ multipartThresholdBytes gb →
      chooseTransfer fileSize (multipartThresholdBytes gb) = TransferKind.single) ∧
    (multipartThresholdBytes gb < fileSize →
      chooseTransfer fileSize (multipartThresholdBytes gb) = TransferKind.multipart) ∧
    chooseTransfer (multipartThresholdBytes gb) (multipartThresholdBytes gb) =
      TransferKind.single := by
  refine ⟨fun h => ?_, fun h => ?_, ?_⟩
  · simp [chooseTransfer, Nat.not_lt.mpr h]
  · simp [chooseTransfer, h]
  · simp [chooseTransfer]

/-! ## Multipart part upload with retry (multipartUploader.js lines 7-68)

`PartTaskState` embeds the mutable fields of `UploadPartTaskJS_MPU` (line 7-11).
`readAndChecksum` embeds lines 12-25: the file is a byte list, a read of
`size` bytes at `offset` is `(file.drop offset).take size`, and a short read is
the thrown error; the content hash is an explicit function argument.
`partAttemptResult` embeds one attempt body of lines 39-55: the oracle returns
either the exception thrown by `getPresignedUrlForPart`/`uploadPartToS3PresignedPut`
or the (quote-stripped) etag response header, where `none` or `""` is the JS
falsy `!etag` that throws "ETag not found for part.".
`uploadPartLoop` embeds the retry loop of lines 37-67; the JS loop variable is
`attempt` with exit test `attempt >= config.retry_attempts`, embedded
structurally via `remaining = retry_attempts - attempt`, which is `0` exactly
when the exit test holds.  On exhaustion the error is recorded on the task and
`null` (`none`) is returned (lines 59-63); the backoff before the next attempt
is `2 ^ attempt` seconds (line 64). -/

structure PartTaskState where
  partNumber : Nat
  offset : Nat
  size : Nat
  data : Option (List Nat)
  checksumSHA256 : Option String
  etag : Option String
  error : Option String
  retries : Nat
deriving Repr, DecidableEq

def newPartTask (partNumber offset size : Nat) : PartTaskState :=
  ⟨partNumber, offset, size, none, none, none, none, 0⟩

def readAndChecksum (hash : List Nat → String) (file : List Nat)
    (t : PartTaskState) : Except String PartTaskState :=
  let bytes := (file.drop t.offset).take t.size
  if bytes.length ≠ t.size then
    Except.error ("Read incorrect data size for part " ++ toString t.partNumber)
  else
    Except.ok { t with data := some bytes, checksumSHA256 := some (hash bytes) }

def partAttemptResult (oracle : Nat → Except String (Option String))
    (attempt : Nat) : Except String String :=
  match oracle attempt with
  | Except.error e => Except.error e
  | Except.ok none => Except.error "ETag not found for part."
  | Except.ok (some t) =>
      if t = "" then Except.error "ETag not found for part." else Except.ok t

structure PartInfo where
  PartNumber : Nat
  ETag : String
  ChecksumSHA256 : String
deriving Repr, DecidableEq

structure RetryRun where
  task : PartTaskState
  result : Option PartInfo
  attempts : Nat
  delaysSec : List Nat
deriving Repr, DecidableEq

def uploadPartLoop (oracle : Nat → Except String (Option String)) :
    Nat → Nat → PartTaskState → RetryRun
  | remaining, attempt, t =>
    let t1 := { t with retries := attempt }
    match partAttemptResult oracle attempt with
    | Except.ok etag =>
        { task := { t1 with etag := some etag },
          result := some ⟨t1.partNumber, etag, t1.checksumSHA256.getD ""⟩,
          attempts := 1, delaysSec := [] }
    | Except.error e =>
        match remaining with
        | 0 =>
            { task := { t1 with error := some e },
              result := none, attempts := 1, delaysSec := [] }
        | remaining' + 1 =>
            let r := uploadPartLoop oracle remaining' (attempt + 1) t1
            { task := r.task, result := r.result, attempts := r.attempts + 1,
              delaysSec := 2 ^ attempt :: r.delaysSec }

def uploadPartWithRetry (oracle : Nat → Except String (Option String))
    (retry_attempts : Nat) (t : PartTaskState) : RetryRun :=
  uploadPartLoop oracle retry_attempts 0 t

/-! ## Single-file presigned-URL request with retry (singleFileUploader.js lines 41-54)

Same loop shape; exhaustion throws a wrapping error whose message embeds the
final attempt's error message (line 50). -/

structure PresignedInfoResponse where
  url : String
  fields : Option (List (String × String))
  s3_key : String
deriving Repr, DecidableEq

structure SingleRetryRun where
  result : Except String PresignedInfoResponse
  attempts : Nat
  delaysSec : List Nat
deriving Repr

def getPresignedUrlLoop (oracle : Nat → Except String PresignedInfoResponse)
    (retry_attempts : Nat) : Nat → Nat → SingleRetryRun
  | remaining, attempt =>
    match oracle attempt with
    | Except.ok info => { result := Except.ok info, attempts := 1, delaysSec := [] }
    | Except.error e =>
        match remaining with
        | 0 =>
            { result := Except.error ("Failed to get presigned URL after " ++
                toString (retry_attempts + 1) ++ " attempts: " ++ e),
              attempts := 1, delaysSec := [] }
        | remaining' + 1 =>
            let r := getPresignedUrlLoop oracle retry_attempts remaining' (attempt + 1)
            { result := r.result, attempts := r.attempts + 1,
              delaysSec := 2 ^ attempt :: r.delaysSec }

def getPresignedUrlWithRetry (oracle : Nat → Except String PresignedInfoResponse)
    (retry_attempts : Nat) : SingleRetryRun :=
  getPresignedUrlLoop oracle retry_attempts retry_attempts 0

lemma getPresignedUrlLoop_always_fail (oracle : Nat → Except String PresignedInfoResponse)
    (N : Nat) (msg : Nat → String) (hfail : ∀ i, oracle i = Except.error (msg i)) :
    ∀ remaining attempt,
      getPresignedUrlLoop oracle N remaining attempt =
        { result := Except.error ("Failed to get presigned URL after " ++
            toString (N + 1) ++ " attempts: " ++ msg (attempt + remaining)),
          attempts := remaining + 1,
          delaysSec := (List.range' attempt remaining).map (2 ^ ·) } := by
  intro remaining
  induction remaining with
  | zero =>
    intro attempt
    rw [getPresignedUrlLoop, hfail attempt]
    simp [List.range']
  | succ r ih =>
    intro attempt
    rw [getPresignedUrlLoop, hfail attempt]
    simp only [ih (attempt + 1), List.range'_succ, List.map_cons]
    have harg : attempt + 1 + r = attempt + (r + 1) := by omega
    rw [harg]

lemma uploadPartLoop_always_fail (oracle : Nat → Except String (Option String))
    (msg : Nat → String) (hfail : ∀ i, partAttemptResult oracle i = Except.error (msg i)) :
    ∀ remaining attempt t,
      uploadPartLoop oracle remaining attempt t =
        { task := { t with retries := attempt + remaining,
                           error := some (msg (attempt + remaining)) },
          result := none, attempts := remaining + 1,
          delaysSec := (List.range' attempt remaining).map (2 ^ ·) } := by
  intro remaining
  induction remaining with
  | zero =>
    intro attempt t
    rw [uploadPartLoop, hfail attempt]
    simp [List.range']
  | succ r ih =>
    intro attempt t
    rw [uploadPartLoop, hfail attempt]
    simp only [ih (attempt + 1), List.range'_succ, List.map_cons]
    have harg : attempt + 1 + r = attempt + (r + 1) := by omega
    rw [harg]

/-- Claim C3: for the retried operations (the single-unit presigned-URL request,
singleFileUploader.js lines 41-54, and each multipart part's request-URL+PUT
pair, multipartUploader.js lines 37-67) with `maxAttempts = N`, an
always-failing operation is attempted exactly `N + 1` times, the delay before
retry `i` is `2 ^ i` seconds, and the final exhausted attempt's error is what
surfaces: the single-unit request throws a wrapper naming the final error, and
the part loop records the final error on the part record and returns null. -/
theorem retry_policy_exhaustion (N : Nat) (msg : Nat → String)
    (urlOracle : Nat → Except String PresignedInfoResponse)
    (partOracle : Nat → Except String (Option String)) (t : PartTaskState)
    (hurl : ∀ i, urlOracle i = Except.error (msg i))
    (hpart : ∀ i, partAttemptResult partOracle i = Except.error (msg i)) :
    (getPresignedUrlWithRetry urlOracle N).attempts = N + 1 ∧
    (getPresignedUrlWithRetry urlOracle N).delaysSec = (List.range N).map (2 ^ ·) ∧
    (getPresignedUrlWithRetry urlOracle N).result =
      Except.error ("Failed to get presigned URL after " ++ toString (N + 1) ++
        " attempts: " ++ msg N) ∧
    (uploadPartWithRetry partOracle N t).attempts = N + 1 ∧
    (uploadPartWithRetry partOracle N t).delaysSec = (List.range N).map (2 ^ ·) ∧
    (uploadPartWithRetry partOracle N t).result = none ∧
    (uploadPartWithRetry partOracle N t).task.error = some (msg N) := by
  have h1 := getPresignedUrlLoop_always_fail urlOracle N msg hurl N 0
  have h2 := uploadPartLoop_always_fail partOracle msg hpart N 0 t
  unfold getPresignedUrlWithRetry uploadPartWithRetry
  rw [h1, h2]
  simp [List.range_eq_range']

/-- Witness for C3: a concrete always-failing oracle with `maxAttempts = 2` is
tried 3 times with backoff delays of 1 and 2 seconds, and the part's result is
null with the final error recorded. -/
theorem retry_policy_exhaustion_witness :
    (getPresignedUrlWithRetry (fun _ => Except.error "boom") 2).attempts = 3 ∧
    (getPresignedUrlWithRetry (fun _ => Except.error "boom") 2).delaysSec = [1, 2] ∧
    (uploadPartWithRetry (fun _ => Except.error "boom") 2 (newPartTask 1 0 4)).result = none ∧
    (uploadPartWithRetry (fun _ => Except.error "boom") 2
      (newPartTask 1 0 4)).task.error = some "boom" := by
  have h := retry_policy_exhaustion 2 (fun _ => "boom") (fun _ => Except.error "boom")
    (fun _ => Except.error "boom") (newPartTask 1 0 4) (fun _ => rfl) (fun _ => rfl)
  refine ⟨h.1, ?_, h.2.2.2.2.2.1, h.2.2.2.2.2.2⟩
  rw [h.2.1]
  decide

/-! Step lemmas for `uploadPartLoop`, used to settle the session-level claims. -/

lemma partAttemptResult_ok_ne_empty {oracle : Nat → Except String (Option String)}
    {attempt : Nat} {s : String}
    (h : partAttemptResult oracle attempt = Except.ok s) : s ≠ "" := by
  unfold partAttemptResult at h
  cases ho : oracle attempt with
  | error e => rw [ho] at h; exact absurd h (by simp)
  | ok v =>
    rw [ho] at h
    cases v with
    | none => exact absurd h (by simp)
    | some u =>
      dsimp only at h
      by_cases hu : u = ""
      · rw [if_pos hu] at h; exact absurd h (by simp)
      · rw [if_neg hu] at h
        simp only [Except.ok.injEq] at h
        rw [← h]
        exact hu

lemma uploadPartLoop_ok {oracle : Nat → Except String (Option String)}
    {attempt : Nat} {s : String}
    (h : partAttemptResult oracle attempt = Except.ok s)
    (remaining : Nat) (t : PartTaskState) :
    uploadPartLoop oracle remaining attempt t =
      { task := { t with retries := attempt, etag := some s },
        result := some ⟨t.partNumber, s, t.checksumSHA256.getD ""⟩,
        attempts := 1, delaysSec := [] } := by
  cases remaining <;> rw [uploadPartLoop] <;> simp [h]

lemma uploadPartLoop_error_zero {oracle : Nat → Except String (Option String)}
    {attempt : Nat} {e : String}
    (h : partAttemptResult oracle attempt = Except.error e) (t : PartTaskState) :
    uploadPartLoop oracle 0 attempt t =
      { task := { t with retries := attempt, error := some e },
        result := none, attempts := 1, delaysSec := [] } := by
  rw [uploadPartLoop]
  simp [h]

lemma uploadPartLoop_error_succ {oracle : Nat → Except String (Option String)}
    {attempt : Nat} {e : String}
    (h : partAttemptResult oracle attempt = Except.error e) (r : Nat) (t : PartTaskState) :
    uploadPartLoop oracle (r + 1) attempt t =
      { task := (uploadPartLoop oracle r (attempt + 1) { t with retries := attempt }).task,
        result := (uploadPartLoop oracle r (attempt + 1) { t with retries := attempt }).result,
        attempts := (uploadPartLoop oracle r (attempt + 1) { t with retries := attempt }).attempts + 1,
        delaysSec := 2 ^ attempt ::
          (uploadPartLoop oracle r (attempt + 1) { t with retries := attempt }).delaysSec } := by
  rw [uploadPartLoop]
  simp [h]

lemma uploadPartLoop_etag_some (oracle : Nat → Except String (Option String)) :
    ∀ remaining attempt t info,
      (uploadPartLoop oracle remaining attempt t).result = some info →
      (uploadPartLoop oracle remaining attempt t).task.etag = some info.ETag ∧
      info.ETag ≠ "" := by
  intro remaining
  induction remaining with
  | zero =>
    intro attempt t info hres
    cases h : partAttemptResult oracle attempt with
    | ok s =>
      rw [uploadPartLoop_ok h] at hres ⊢
      have hinfo := Option.some.inj hres
      rw [← hinfo]
      exact ⟨rfl, partAttemptResult_ok_ne_empty h⟩
    | error e =>
      rw [uploadPartLoop_error_zero h] at hres
      exact absurd hres (by simp)
  | succ r ih =>
    intro attempt t info hres
    cases h : partAttemptResult oracle attempt with
    | ok s =>
      rw [uploadPartLoop_ok h] at hres ⊢
      have hinfo := Option.some.inj hres
      rw [← hinfo]
      exact ⟨rfl, partAttemptResult_ok_ne_empty h⟩
    | error e =>
      rw [uploadPartLoop_error_succ h] at hres ⊢
      exact ih (attempt + 1) { t with retries := attempt } info hres

lemma uploadPartLoop_etag_none (oracle : Nat → Except String (Option String)) :
    ∀ remaining attempt t,
      (uploadPartLoop oracle remaining attempt t).result = none →
      (uploadPartLoop oracle remaining attempt t).task.etag = t.etag := by
  intro remaining
  induction remaining with
  | zero =>
    intro attempt t hres
    cases h : partAttemptResult oracle attempt with
    | ok s =>
      rw [uploadPartLoop_ok h] at hres
      exact absurd hres (by simp)
    | error e =>
      rw [uploadPartLoop_error_zero h]
  | succ r ih =>
    intro attempt t hres
    cases h : partAttemptResult oracle attempt with
    | ok s =>
      rw [uploadPartLoop_ok h] at hres
      exact absurd hres (by simp)
    | error e =>
      rw [uploadPartLoop_error_succ h] at hres ⊢
      exact ih (attempt + 1) { t with retries := attempt } hres

lemma uploadPartLoop_preserves_data (oracle : Nat → Except String (Option String)) :
    ∀ remaining attempt t,
      (uploadPartLoop oracle remaining attempt t).task.data = t.data := by
  intro remaining
  induction remaining with
  | zero =>
    intro attempt t
    cases h : partAttemptResult oracle attempt with
    | ok s => rw [uploadPartLoop_ok h]
    | error e => rw [uploadPartLoop_error_zero h]
  | succ r ih =>
    intro attempt t
    cases h : partAttemptResult oracle attempt with
    | ok s => rw [uploadPartLoop_ok h]
    | error e =>
      rw [uploadPartLoop_error_succ h]
      exact ih (attempt + 1) { t with retries := attempt }

/-- Claim C7 counterexample: a part task whose 3-byte buffer was loaded by
`readAndChecksum` still retains that buffer after its upload attempt concludes
(here a successful attempt), so the record does not release the buffer. -/
theorem part_buffer_release_counterexample :
    ((uploadPartWithRetry (fun _ => Except.ok (some "etag1")) 3
        ((readAndChecksum (fun _ => "h") [1, 2, 3] (newPartTask 1 0 3)).toOption.getD
          (newPartTask 1 0 3))).task).data = some [1, 2, 3] ∧
    ((uploadPartWithRetry (fun _ => Except.ok (some "etag1")) 3
        ((readAndChecksum (fun _ => "h") [1, 2, 3] (newPartTask 1 0 3)).toOption.getD
          (newPartTask 1 0 3))).task).data ≠ none := by
  constructor <;> decide

/-- Claim C7 (amended): the part record's byte buffer is never released:
after the part's upload attempt concludes, whether it succeeded or exhausted
its retries, the record still holds exactly the buffer it held before
(`multipartUploader.js` never clears `partTask.data`). -/
theorem part_buffer_retained (oracle : Nat → Except String (Option String))
    (retry_attempts : Nat) (t : PartTaskState) :
    (uploadPartWithRetry oracle retry_attempts t).task.data = t.data :=
  uploadPartLoop_preserves_data oracle retry_attempts 0 t

/-! ## Multipart session finalization (multipartUploader.js lines 126-184)

`runPartUploads` embeds lines 129-153: every part task runs the retry upload
(the per-part attempt oracle is keyed by part number), and
`Promise.allSettled` collects each task's settled value; the fulfilled
non-null values are gathered by `filterMap` inside `finalizeMultipart`.
`finalizeMultipart` embeds lines 157-184: if any part is missing
(`uploadedPartsInfo.length !== partTasks.length` with at least one task), the
backend abort is called and the original incomplete-parts error is thrown;
otherwise complete is called with the parts sorted by part number; on a failed
complete, abort is called and the complete call's own error is rethrown.  The
abort call's result (`abortResult`) is only logged by the source (lines 162 and
182), which the embedding mirrors by not consuming it. -/

inductive MpuCall where
  | complete
  | abort
deriving Repr, DecidableEq

structure MultipartUploadResult where
  file : String
  status : String
  s3_key : String
  location : String
deriving Repr, DecidableEq

structure MpuOutcome where
  calls : List MpuCall
  completeParts : List PartInfo
  result : Except String MultipartUploadResult

def runPartUploads (oracle : Nat → Nat → Except String (Option String))
    (retry_attempts : Nat) (tasks : List PartTaskState) : List RetryRun :=
  tasks.map fun t => uploadPartWithRetry (oracle t.partNumber) retry_attempts t

def failedPartsMessage (runs : List RetryRun) : String :=
  "One or more parts failed. Failed parts: " ++
    String.intercalate ", "
      ((runs.filter fun r => r.task.etag.getD "" = "").map
        fun r => toString r.task.partNumber)

def finalizeMultipart (runs : List RetryRun)
    (completeResult : Except String String) (abortResult : Except String Unit)
    (baseName backendS3Key : String) : MpuOutcome :=
  let uploadedPartsInfo := runs.filterMap fun r => r.result
  if 0 < runs.length ∧ uploadedPartsInfo.length ≠ runs.length then
    { calls := [MpuCall.abort], completeParts := [],
      result := Except.error (failedPartsMessage runs) }
  else
    let sortedParts := uploadedPartsInfo.mergeSort fun a b => a.PartNumber ≤ b.PartNumber
    match completeResult with
    | Except.ok location =>
        { calls := [MpuCall.complete], completeParts := sortedParts,
          result := Except.ok ⟨baseName, "success", backendS3Key, location⟩ }
    | Except.error e =>
        { calls := [MpuCall.complete, MpuCall.abort], completeParts := sortedParts,
          result := Except.error ("Failed to complete MPU with backend: " ++ e) }

def multipartPartsPhase (oracle : Nat → Nat → Except String (Option String))
    (retry_attempts : Nat) (tasks : List PartTaskState)
    (completeResult : Except String String) (abortResult : Except String Unit)
    (baseName backendS3Key : String) : MpuOutcome :=
  finalizeMultipart (runPartUploads oracle retry_attempts tasks)
    completeResult abortResult baseName backendS3Key

lemma length_filterMap_eq_iff {α β : Type} (f : α → Option β) (l : List α) :
    (l.filterMap f).length = l.length ↔ ∀ a ∈ l, f a ≠ none := by
  induction l with
  | nil => simp
  | cons a l ih =>
    have hle := List.length_filterMap_le f l
    cases hf : f a with
    | none =>
      simp only [List.filterMap_cons, hf, List.length_cons]
      constructor
      · intro h
        exact absurd h (by omega)
      · intro h
        exact absurd hf (h a (List.mem_cons_self a l))
    | some b =>
      simp only [List.filterMap_cons, hf, List.length_cons]
      constructor
      · intro h a' ha'
        rcases List.mem_cons.mp ha' with rfl | ha'
        · simp [hf]
        · exact (ih.mp (by omega)) a' ha'
      · intro h
        have := ih.mpr fun x hx => h x (List.mem_cons_of_mem a hx)
        omega

/-- Claim C2: the complete call happens only when every part record holds a
non-empty ETag, and if any part's result is null (its retries exhausted with no
ETag) after all part attempts have settled, complete is never called and abort
is issued exactly once for the session. -/
theorem mpu_complete_only_with_full_etags
    (oracle : Nat → Nat → Except String (Option String)) (retry_attempts : Nat)
    (tasks : List PartTaskState) (completeResult : Except String String)
    (abortResult : Except String Unit) (baseName backendS3Key : String) :
    (MpuCall.complete ∈ (multipartPartsPhase oracle retry_attempts tasks completeResult
        abortResult baseName backendS3Key).calls →
      ∀ run ∈ runPartUploads oracle retry_attempts tasks,
        ∃ s, run.task.etag = some s ∧ s ≠ "") ∧
    ((∃ run ∈ runPartUploads oracle retry_attempts tasks, run.result = none) →
      MpuCall.complete ∉ (multipartPartsPhase oracle retry_attempts tasks completeResult
        abortResult baseName backendS3Key).calls ∧
      ((multipartPartsPhase oracle retry_attempts tasks completeResult
        abortResult baseName backendS3Key).calls.count MpuCall.abort = 1)) := by
  unfold multipartPartsPhase finalizeMultipart
  by_cases hC : 0 < (runPartUploads oracle retry_attempts tasks).length ∧
      ((runPartUploads oracle retry_attempts tasks).filterMap fun r => r.result).length ≠
        (runPartUploads oracle retry_attempts tasks).length
  · rw [if_pos hC]
    constructor
    · intro hmem
      exact absurd hmem (by simp)
    · intro _
      constructor
      · simp
      · simp
  · rw [if_neg hC]
    have hall : ∀ run ∈ runPartUploads oracle retry_attempts tasks, run.result ≠ none := by
      intro run hrun
      rcases Decidable.not_and_iff_or_not.mp hC with h0 | hlen
      · exact absurd (List.length_pos.mpr (List.ne_nil_of_mem hrun)) h0
      · exact (length_filterMap_eq_iff (fun r => r.result)
          (runPartUploads oracle retry_attempts tasks)).mp (Decidable.not_not.mp hlen) run hrun
    constructor
    · intro _ run hrun
      rcases hres : run.result with _ | info
      · exact absurd hres (hall run hrun)
      · rcases List.mem_map.mp hrun with ⟨t, _, rfl⟩
        have := uploadPartLoop_etag_some (oracle t.partNumber) retry_attempts 0 t info hres
        exact ⟨info.ETag, this.1, this.2⟩
    · intro hex
      rcases hex with ⟨run, hrun, hnone⟩
      exact absurd hnone (hall run hrun)

/-- Claim C6: when the part set is incomplete or the complete call fails, an
abort attempt is made, and the error raised to the caller is the original
failure; the abort call's own outcome can never change the result (the source
only logs it). -/
theorem mpu_abort_failure_does_not_mask
    (oracle : Nat → Nat → Except String (Option String)) (retry_attempts : Nat)
    (tasks : List PartTaskState) (completeResult : Except String String)
    (abortResult abortResult' : Except String Unit) (baseName backendS3Key : String) :
    (multipartPartsPhase oracle retry_attempts tasks completeResult abortResult
        baseName backendS3Key =
      multipartPartsPhase oracle retry_attempts tasks completeResult abortResult'
        baseName backendS3Key) ∧
    ((∃ run ∈ runPartUploads oracle retry_attempts tasks, run.result = none) →
      MpuCall.abort ∈ (multipartPartsPhase oracle retry_attempts tasks completeResult
        abortResult baseName backendS3Key).calls ∧
      (multipartPartsPhase oracle retry_attempts tasks completeResult abortResult
        baseName backendS3Key).result =
        Except.error (failedPartsMessage (runPartUploads oracle retry_attempts tasks))) ∧
    ((∀ run ∈ runPartUploads oracle retry_attempts tasks, run.result ≠ none) →
      ∀ e, completeResult = Except.error e →
        MpuCall.abort ∈ (multipartPartsPhase oracle retry_attempts tasks completeResult
          abortResult baseName backendS3Key).calls ∧
        (multipartPartsPhase oracle retry_attempts tasks completeResult abortResult
          baseName backendS3Key).result =
          Except.error ("Failed to complete MPU with backend: " ++ e)) := by
  refine ⟨rfl, ?_, ?_⟩
  · intro hex
    rcases hex with ⟨run, hrun, hnone⟩
    have hC : 0 < (runPartUploads oracle retry_attempts tasks).length ∧
        ((runPartUploads oracle retry_attempts tasks).filterMap fun r => r.result).length ≠
          (runPartUploads oracle retry_attempts tasks).length := by
      constructor
      · exact List.length_pos.mpr (List.ne_nil_of_mem hrun)
      · intro heq
        exact (length_filterMap_eq_iff (fun r => r.result)
          (runPartUploads oracle retry_attempts tasks)).mp heq run hrun hnone
    unfold multipartPartsPhase finalizeMultipart
    rw [if_pos hC]
    exact ⟨by simp, rfl⟩
  · intro hall e he
    have hC : ¬ (0 < (runPartUploads oracle retry_attempts tasks).length ∧
        ((runPartUploads oracle retry_attempts tasks).filterMap fun r => r.result).length ≠
          (runPartUploads oracle retry_attempts tasks).length) := by
      intro hC
      exact hC.2 ((length_filterMap_eq_iff (fun r => r.result)
        (runPartUploads oracle retry_attempts tasks)).mpr hall)
    unfold multipartPartsPhase finalizeMultipart
    rw [if_neg hC, he]
    exact ⟨by simp, rfl⟩

/-! ## Single file upload (singleFileUploader.js lines 25-97)

`s3UploadStep` embeds lines 57-81: the authorization's shape selects the path
(`fields` present → presigned POST, accepted only on status 204; absent →
presigned PUT, accepted only on status 200); any other status throws, and the
etag response header (already quote-stripped, possibly absent) is the step's
value.  `handleSingleFileUpload` embeds the whole routine after checksum and
MIME inference: the presigned-URL request retried under the shared policy
(lines 41-54), the storage write, the backend confirm call (line 89), and the
single success return of line 91. -/

structure S3Response where
  status : Nat
  etagHeader : Option String
deriving Repr, DecidableEq

structure SingleUploadResult where
  file : String
  status : String
  s3_key : String
deriving Repr, DecidableEq

def s3UploadStep (fields : Option (List (String × String)))
    (postResponse putResponse : S3Response) : Except String (Option String) :=
  match fields with
  | some _ =>
      if postResponse.status = 204 then Except.ok postResponse.etagHeader
      else Except.error ("S3 upload (POST) failed with status " ++
        toString postResponse.status ++ ".")
  | none =>
      if putResponse.status = 200 then Except.ok putResponse.etagHeader
      else Except.error ("S3 upload (PUT) failed with status " ++
        toString putResponse.status ++ ".")

def handleSingleFileUpload (retry_attempts : Nat) (baseName : String)
    (urlOracle : Nat → Except String PresignedInfoResponse)
    (postResponse putResponse : S3Response)
    (confirmResult : Except String Unit) : Except String SingleUploadResult :=
  match (getPresignedUrlWithRetry urlOracle retry_attempts).result with
  | Except.error e => Except.error e
  | Except.ok presignedInfoResponse =>
      match s3UploadStep presignedInfoResponse.fields postResponse putResponse with
      | Except.error e => Except.error e
      | Except.ok _s3ETag =>
          match confirmResult with
          | Except.error e => Except.error e
          | Except.ok _ =>
              Except.ok { file := baseName, status := "success",
                          s3_key := presignedInfoResponse.s3_key }

lemma handleSingleFileUpload_ok {retry_attempts : Nat} {baseName : String}
    {urlOracle : Nat → Except String PresignedInfoResponse}
    {postResponse putResponse : S3Response} {confirmResult : Except String Unit}
    {r : SingleUploadResult}
    (h : handleSingleFileUpload retry_attempts baseName urlOracle postResponse
      putResponse confirmResult = Except.ok r) :
    ∃ info, (getPresignedUrlWithRetry urlOracle retry_attempts).result = Except.ok info ∧
      s3UploadStep info.fields postResponse putResponse =
        Except.ok (match info.fields with
          | some _ => postResponse.etagHeader
          | none => putResponse.etagHeader) ∧
      r = { file := baseName, status := "success", s3_key := info.s3_key } := by
  unfold handleSingleFileUpload at h
  cases hu : (getPresignedUrlWithRetry urlOracle retry_attempts).result with
  | error e => rw [hu] at h; exact absurd h (by simp)
  | ok info =>
      rw [hu] at h
      dsimp only at h
      refine ⟨info, rfl, ?_⟩
      cases hs : s3UploadStep info.fields postResponse putResponse with
      | error e => rw [hs] at h; exact absurd h (by simp)
      | ok etag =>
          rw [hs] at h
          cases hc : confirmResult with
          | error e => rw [hc] at h; exact absurd h (by simp)
          | ok u =>
              rw [hc] at h
              have hr := Except.ok.inj h
              refine ⟨?_, hr.symm⟩
              unfold s3UploadStep at hs
              cases hf : info.fields with
              | some fs =>
                  rw [hf] at hs
                  dsimp only at hs ⊢
                  by_cases hst : postResponse.status = 204
                  · rw [if_pos hst] at hs
                    rw [Except.ok.inj hs]
                  · rw [if_neg hst] at hs
                    exact absurd hs (by simp)
              | none =>
                  rw [hf] at hs
                  dsimp only at hs ⊢
                  by_cases hst : putResponse.status = 200
                  · rw [if_pos hst] at hs
                    rw [Except.ok.inj hs]
                  · rw [if_neg hst] at hs
                    exact absurd hs (by simp)

/-- Claim C10: the single-unit storage write is accepted on exactly one status
code per path: the form POST path only on 204 and the direct PUT path only on
200; any other status on the taken path (including other 2xx codes such as
201) makes the whole upload fail with that path's terminal error. -/
theorem single_upload_exact_status_codes (retry_attempts : Nat) (baseName : String)
    (urlOracle : Nat → Except String PresignedInfoResponse)
    (postResponse putResponse : S3Response) (confirmResult : Except String Unit)
    (info : PresignedInfoResponse)
    (hurl : (getPresignedUrlWithRetry urlOracle retry_attempts).result = Except.ok info) :
    (info.fields ≠ none → postResponse.status ≠ 204 →
      handleSingleFileUpload retry_attempts baseName urlOracle postResponse putResponse
        confirmResult = Except.error ("S3 upload (POST) failed with status " ++
          toString postResponse.status ++ ".")) ∧
    (info.fields = none → putResponse.status ≠ 200 →
      handleSingleFileUpload retry_attempts baseName urlOracle postResponse putResponse
        confirmResult = Except.error ("S3 upload (PUT) failed with status " ++
          toString putResponse.status ++ ".")) ∧
    (∀ r, handleSingleFileUpload retry_attempts baseName urlOracle postResponse putResponse
        confirmResult = Except.ok r →
      (info.fields ≠ none → postResponse.status = 204) ∧
      (info.fields = none → putResponse.status = 200)) := by
  refine ⟨?_, ?_, ?_⟩
  · intro hf hst
    rcases hfs : info.fields with _ | fs
    · exact absurd hfs hf
    · unfold handleSingleFileUpload
      rw [hurl]
      have hstep : s3UploadStep info.fields postResponse putResponse =
          Except.error ("S3 upload (POST) failed with status " ++
            toString postResponse.status ++ ".") := by
        unfold s3UploadStep
        rw [hfs, if_neg hst]
      dsimp only
      rw [hstep]
  · intro hf hst
    unfold handleSingleFileUpload
    rw [hurl]
    have hstep : s3UploadStep info.fields postResponse putResponse =
        Except.error ("S3 upload (PUT) failed with status " ++
          toString putResponse.status ++ ".") := by
      unfold s3UploadStep
      rw [hf, if_neg hst]
    dsimp only
    rw [hstep]
  · intro r hr
    rcases handleSingleFileUpload_ok hr with ⟨info', hurl', hstep', _⟩
    have hinfo : info' = info := by
      rw [hurl] at hurl'
      exact (Except.ok.inj hurl').symm
    rw [hinfo] at hstep'
    constructor
    · intro hf
      rcases hfs : info.fields with _ | fs
      · exact absurd hfs hf
      · by_contra hst
        have : s3UploadStep info.fields postResponse putResponse =
            Except.error ("S3 upload (POST) failed with status " ++
              toString postResponse.status ++ ".") := by
          unfold s3UploadStep
          rw [hfs, if_neg hst]
        rw [this] at hstep'
        exact absurd hstep' (by simp)
    · intro hf
      by_contra hst
      have : s3UploadStep info.fields postResponse putResponse =
          Except.error ("S3 upload (PUT) failed with status " ++
            toString putResponse.status ++ ".") := by
        unfold s3UploadStep
        rw [hf, if_neg hst]
      rw [this] at hstep'
      exact absurd hstep' (by simp)

/-- Witness for C10: a presigned-POST authorization answered by storage with
status 201 (a 2xx code that is not 204) makes the upload fail with the POST
path's terminal error. -/
theorem single_upload_exact_status_codes_witness :
    handleSingleFileUpload 3 "data.bin" (fun _ => Except.ok ⟨"u", some [], "k1"⟩)
      ⟨201, none⟩ ⟨200, some "e"⟩ (Except.ok ()) =
      Except.error ("S3 upload (POST) failed with status " ++ toString (201 : Nat) ++ ".") := by
  exact (single_upload_exact_status_codes 3 "data.bin" (fun _ => Except.ok ⟨"u", some [], "k1"⟩)
    ⟨201, none⟩ ⟨200, some "e"⟩ (Except.ok ()) ⟨"u", some [], "k1"⟩ rfl).1
    (by simp) (by decide)

/-- Claim C9: neither transfer operation ever returns a value describing a
failure: whenever the Single-Unit or the Multipart transfer returns normally,
the returned record's status field is "success" (and it carries the storage
key); every failure surfaces as a raised error instead. -/
theorem transfers_never_return_failure (retry_attempts : Nat) (baseName : String)
    (urlOracle : Nat → Except String PresignedInfoResponse)
    (postResponse putResponse : S3Response) (confirmResult : Except String Unit)
    (oracle : Nat → Nat → Except String (Option String)) (tasks : List PartTaskState)
    (completeResult : Except String String) (abortResult : Except String Unit)
    (mpuBaseName backendS3Key : String) :
    (∀ r, handleSingleFileUpload retry_attempts baseName urlOracle postResponse
        putResponse confirmResult = Except.ok r →
      r.status = "success" ∧ ∃ info,
        (getPresignedUrlWithRetry urlOracle retry_attempts).result = Except.ok info ∧
        r.s3_key = info.s3_key) ∧
    (∀ r, (multipartPartsPhase oracle retry_attempts tasks completeResult abortResult
        mpuBaseName backendS3Key).result = Except.ok r →
      r.status = "success" ∧ r.s3_key = backendS3Key) := by
  constructor
  · intro r hr
    rcases handleSingleFileUpload_ok hr with ⟨info, hurl, _, hval⟩
    rw [hval]
    exact ⟨rfl, info, hurl, rfl⟩
  · intro r hr
    unfold multipartPartsPhase finalizeMultipart at hr
    by_cases hC : 0 < (runPartUploads oracle retry_attempts tasks).length ∧
        ((runPartUploads oracle retry_attempts tasks).filterMap fun r => r.result).length ≠
          (runPartUploads oracle retry_attempts tasks).length
    · rw [if_pos hC] at hr
      exact absurd hr (by simp)
    · rw [if_neg hC] at hr
      cases hcr : completeResult with
      | error e => rw [hcr] at hr; exact absurd hr (by simp)
      | ok location =>
          rw [hcr] at hr
          have := Except.ok.inj hr
          rw [← this]
          exact ⟨rfl, rfl⟩

/-! ## Folder upload finalization (folderProcessor.js lines 95-143)

`fileOutcomeRecord` embeds the per-file bookkeeping of the scheduler body
(lines 111-116): a fulfilled transfer pushes the task merged with the
transfer's result (status "success"), a rejected one pushes the task with
status "failed" and the error message.  `processFolderOutcomes` runs that
bookkeeping over every file's settled outcome and then applies
`finalizeFolderUpload`, the embedding of lines 136-143: when any file failed
the call throws an error whose message carries only the failure count, and the
summary holding the itemized `results` is returned only on the no-failure
path. -/

structure FolderFileResult where
  relativePath : String
  size : Nat
  status : String
  errorMessage : Option String
  s3_key : Option String
deriving Repr, DecidableEq

structure FolderSummary where
  totalFiles : Nat
  successfulUploads : Nat
  failedUploads : Nat
  results : List FolderFileResult
deriving Repr, DecidableEq

def fileOutcomeRecord (relativePath : String) (size : Nat)
    (outcome : Except String SingleUploadResult) : FolderFileResult :=
  match outcome with
  | Except.ok r => ⟨relativePath, size, "success", none, some r.s3_key⟩
  | Except.error e => ⟨relativePath, size, "failed", some e, none⟩

def finalizeFolderUpload (totalFiles successfulUploads failedUploads : Nat)
    (results : List FolderFileResult) : Except String FolderSummary :=
  if 0 < failedUploads then
    Except.error (toString failedUploads ++
      " file(s) failed to upload during folder processing.")
  else
    Except.ok ⟨totalFiles, successfulUploads, failedUploads, results⟩

def processFolderOutcomes
    (outcomes : List (String × Nat × Except String SingleUploadResult)) :
    Except String FolderSummary :=
  let results := outcomes.map fun o => fileOutcomeRecord o.1 o.2.1 o.2.2
  let successfulUploads := (outcomes.filter fun o => o.2.2.isOk).length
  let failedUploads := (outcomes.filter fun o => ! o.2.2.isOk).length
  finalizeFolderUpload outcomes.length successfulUploads failedUploads results

/-- Claim C5 counterexample: with one failed file among two, the folder call's
outcome is the thrown error carrying only the failure count, and the
finalization yields that identical outcome whether the itemized per-file
results are present or dropped entirely — so the per-file results are not
returned to the caller alongside the aggregate failure signal. -/
theorem folder_failure_results_counterexample :
    processFolderOutcomes
        [("a.txt", 10, Except.ok ⟨"a.txt", "success", "k/a.txt"⟩),
         ("b.txt", 20, Except.error "S3 upload (PUT) failed with status 500.")] =
      Except.error (toString (1 : Nat) ++
        " file(s) failed to upload during folder processing.") ∧
    finalizeFolderUpload 2 1 1
        [⟨"a.txt", 10, "success", none, some "k/a.txt"⟩,
         ⟨"b.txt", 20, "failed", some "S3 upload (PUT) failed with status 500.", none⟩] =
      finalizeFolderUpload 2 1 1 [] := by
  exact ⟨rfl, rfl⟩

/-- Claim C5 (amended): when at least one file reaches a failed terminal
status, the folder-level call fails with an error whose message carries the
count of failures; that failure outcome is independent of the itemized
per-file results, which are returned only when no file failed. -/
theorem folder_failure_aggregate
    (outcomes : List (String × Nat × Except String SingleUploadResult))
    (totalFiles successfulUploads failedUploads : Nat)
    (results results' : List FolderFileResult) (hfail : 0 < failedUploads)
    (hex : ∃ o ∈ outcomes, o.2.2.isOk = false) :
    finalizeFolderUpload totalFiles successfulUploads failedUploads results =
      Except.error (toString failedUploads ++
        " file(s) failed to upload during folder processing.") ∧
    finalizeFolderUpload totalFiles successfulUploads failedUploads results =
      finalizeFolderUpload totalFiles successfulUploads failedUploads results' ∧
    processFolderOutcomes outcomes =
      Except.error (toString (outcomes.filter fun o => ! o.2.2.isOk).length ++
        " file(s) failed to upload during folder processing.") := by
  have hpos : 0 < (outcomes.filter fun o => ! o.2.2.isOk).length := by
    rcases hex with ⟨o, ho, hko⟩
    exact List.length_pos.mpr
      (List.ne_nil_of_mem (List.mem_filter.mpr ⟨ho, by simp [hko]⟩))
  unfold processFolderOutcomes finalizeFolderUpload
  simp only [if_pos hfail, if_pos hpos]
  exact ⟨trivial, trivial, trivial⟩

/-- Witness for C5 (amended) at a concrete two-file run with one failure. -/
theorem folder_failure_aggregate_witness :
    finalizeFolderUpload 2 1 1
        [⟨"b.txt", 20, "failed", some "network", none⟩] =
      Except.error (toString (1 : Nat) ++
        " file(s) failed to upload during folder processing.") ∧
    processFolderOutcomes [("b.txt", 20, Except.error "network")] =
      Except.error (toString
        ([("b.txt", 20, (Except.error "network" : Except String SingleUploadResult))].filter
          fun o => ! o.2.2.isOk).length ++
        " file(s) failed to upload during folder processing.") := by
  have h := folder_failure_aggregate [("b.txt", 20, Except.error "network")] 2 1 1
    [⟨"b.txt", 20, "failed", some "network", none⟩] [] (by decide)
    ⟨("b.txt", 20, Except.error "network"), by simp, rfl⟩
  exact ⟨h.1, h.2.2⟩

/-! ## Scanner relative paths (folderProcessor.js lines 27-31)

The scanner records
`path.relative(rootForRelativePath, itemPath).replace(/\\/g, '/')`.  For a
file below the scan root, `path.relative` yields the file's path components
below the root joined with the platform separator (`'/'` on POSIX, `'\'` on
Windows).  Strings are embedded as character lists; `joinSep` models the
platform join and `normalizeSlashes` the global regexp replacement of every
backslash by a forward slash. -/

def normalizeSlashes (s : List Char) : List Char :=
  s.map fun c => if c = '\\' then '/' else c

def joinSep (sep : Char) : List (List Char) → List Char
  | [] => []
  | [comp] => comp
  | comp :: comp2 :: rest => comp ++ sep :: joinSep sep (comp2 :: rest)

def scannerRelativePath (sep : Char) (components : List (List Char)) : List Char :=
  normalizeSlashes (joinSep sep components)

lemma normalizeSlashes_eq_self {c : List Char} (h : ('\\' : Char) ∉ c) :
    normalizeSlashes c = c := by
  induction c with
  | nil => rfl
  | cons x xs ih =>
    have hx : ¬ x = '\\' := fun hh => h (hh ▸ List.mem_cons_self x xs)
    have hxs := ih fun hm => h (List.mem_cons_of_mem x hm)
    simp only [normalizeSlashes, List.map_cons, if_neg hx]
    rw [normalizeSlashes] at hxs
    rw [hxs]

lemma normalizeSlashes_joinSep (sep : Char) (hsep : sep = '/' ∨ sep = '\\') :
    ∀ components : List (List Char),
      (∀ comp ∈ components, ('\\' : Char) ∉ comp) →
      normalizeSlashes (joinSep sep components) = joinSep '/' components
  | [], _ => rfl
  | [comp], h =>
    normalizeSlashes_eq_self (h comp (List.mem_cons_self comp []))
  | comp :: comp2 :: rest, h => by
    have ih := normalizeSlashes_joinSep sep hsep (comp2 :: rest)
      fun c hc => h c (List.mem_cons_of_mem comp hc)
    have hcomp := normalizeSlashes_eq_self (h comp (List.mem_cons_self comp _))
    show normalizeSlashes (comp ++ sep :: joinSep sep (comp2 :: rest)) =
      comp ++ '/' :: joinSep '/' (comp2 :: rest)
    rw [normalizeSlashes, List.map_append, List.map_cons]
    rw [normalizeSlashes] at ih hcomp
    rw [ih, hcomp]
    rcases hsep with rfl | rfl
    · rw [if_neg (by decide)]
    · rw [if_pos rfl]

/-- Claim C8: the scanner's relative path — the path components below the scan
root joined by the platform separator, then normalized to forward slashes — is
the same on a backslash-separator platform as on a forward-slash platform:
both equal the components joined with '/', so the same tree yields the same
relative paths (hence the same remote keys) on every operating system. -/
theorem scanner_relative_path_platform_independent (components : List (List Char))
    (hnb : ∀ comp ∈ components, ('\\' : Char) ∉ comp) :
    scannerRelativePath '\\' components = joinSep '/' components ∧
    scannerRelativePath '/' components = joinSep '/' components ∧
    scannerRelativePath '\\' components = scannerRelativePath '/' components := by
  have h1 := normalizeSlashes_joinSep '\\' (Or.inr rfl) components hnb
  have h2 := normalizeSlashes_joinSep '/' (Or.inl rfl) components hnb
  exact ⟨h1, h2, h1.trans h2.symm⟩

/-- Witness for C8 at the concrete tree entry `dir/f.txt`. -/
theorem scanner_relative_path_platform_independent_witness :
    scannerRelativePath '\\' [['d', 'i', 'r'], ['f', '.', 't', 'x', 't']] =
      ['d', 'i', 'r', '/', 'f', '.', 't', 'x', 't'] ∧
    scannerRelativePath '/' [['d', 'i', 'r'], ['f', '.', 't', 'x', 't']] =
      ['d', 'i', 'r', '/', 'f', '.', 't', 'x', 't'] := by
  have h := scanner_relative_path_platform_independent
    [['d', 'i', 'r'], ['f', '.', 't', 'x', 't']] (by decide)
  constructor
  · rw [h.1]
    decide
  · rw [h.2.1]
    decide

end CUE
